import Mathlib

/-!
# logind user objects on the bus (`src/logind-user-dbus.c`)

A shallow embedding of the D-Bus front end of logind's `User` objects:
the object-path codec (`user_bus_path`, `get_user_for_path`), the two
structured property marshalers (`bus_user_append_display`,
`bus_user_append_sessions`), the property table of
`user_message_dispatch` and the decode-then-branch handler
`user_message_handler`.

Strings are Lean `String`s, C `int` results are `Int`, fallible library
calls read their outcome from an explicit oracle and are recorded in a
call log, and collaborators whose code lives in other files are either
parameters (`Externals`) or carry a doc comment saying where their
behaviour was taken from.
-/

namespace Logind

/-! ## Constants of `<errno.h>` (Linux values) -/

def ENOENT : Int := 2
def ENOMEM : Int := 12
def EINVAL : Int := 22
def ERANGE : Int := 34

/-- Width of `unsigned long` / `unsigned long long` on the LP64 targets logind is built for. -/
def ULONG_BITS : Nat := 64

/-! ## Data model (`logind-user.h`, `logind-session.h`, `logind.h`) -/

/-- The fields of `Session` read by this file. -/
structure Session where
  id : String
deriving DecidableEq, Repr

/-- The fields of `User` read by this file; `sessions` is the
`sessions_by_user` linked list from its head, `display` is nullable. -/
structure User where
  uid : Nat
  gid : Nat
  name : String
  runtime_path : String
  cgroup_path : String
  service : String
  display : Option Session
  sessions : List Session
deriving DecidableEq, Repr

/-- Modelled from the spec: the `Hashmap` behind `m->users`, whose code is
in the missing `hashmap.c`, as the Entity Store of §6, "lookup(id) ->
Entity or NotFound, keyed by the numeric identifier". -/
abbrev Hashmap := Nat → Option User

/-- Modelled from the spec: `hashmap_get` of the missing `hashmap.c`,
the Entity Store lookup of §6; `none` is the `NULL` result. -/
def hashmap_get (h : Hashmap) (key : Nat) : Option User := h key

/-- The field of `Manager` read by this file. -/
structure Manager where
  users : Hashmap

/-! ## Path codec -/

/-- The literal object-path head used by both directions of the codec. -/
def USER_PATH_HEAD : String := "/org/freedesktop/login1/user/"

/-- The `%llu` conversion of `asprintf`: base ten, no sign, no padding. -/
def fmt_llu (n : Nat) : String := String.mk (Nat.toDigits 10 n)

/-- The function `user_bus_path`; `alloc` is whether `asprintf` could allocate,
`none` is the `NULL` result. The cast to `unsigned long long` is the `%`. -/
def user_bus_path (alloc : Bool) (u : User) : Option String :=
  if alloc then some (USER_PATH_HEAD ++ fmt_llu (u.uid % 2 ^ ULONG_BITS)) else none

/-- Modelled from the spec: `startswith` of the missing `util.c`,
"the path does not start with the expected prefix". -/
def startswith (s pre : String) : Bool := pre.data.isPrefixOf s.data

/-- An ASCII decimal digit. -/
def is_digit (c : Char) : Bool := decide (48 ≤ c.toNat ∧ c.toNat ≤ 57)

/-- A "valid non-negative decimal integer": one or more digits, nothing else. -/
def is_decimal (s : List Char) : Bool := !s.isEmpty && s.all is_digit

/-- Base-ten value of a digit string (Horner scheme, most significant first). -/
def decimal_value (s : List Char) : Nat :=
  s.foldl (fun acc c => 10 * acc + (c.toNat - 48)) 0

/-- A digit string renders `n`: digits only, at least one, value `n`,
and a leading zero only for zero itself. -/
def renders (ds : List Char) (n : Nat) : Prop :=
  is_decimal ds = true ∧ decimal_value ds = n ∧ (ds.head? = some '0' → ds = ['0'])

/-- Modelled from the spec: `safe_atolu` of the missing `util.c`. §4.1 says
decoding fails "if the suffix is not a valid non-negative integer"; a
value that does not fit `unsigned long` is refused as well. The result
is the return code and the content of `*ret_lu` afterwards (`lu0`
before; written on success only). -/
def safe_atolu (s : String) (lu0 : Nat) : Int × Nat :=
  if is_decimal s.data then
    if decimal_value s.data < 2 ^ ULONG_BITS then (0, decimal_value s.data)
    else (-ERANGE, lu0)
  else (-EINVAL, lu0)

/-- The helpers of `util.c` that `get_user_for_path` calls. -/
structure Externals where
  startswith : String → String → Bool
  safe_atolu : String → Nat → Int × Nat

/-- The helpers as the spec describes them. -/
def spec_externals : Externals := ⟨startswith, safe_atolu⟩

/-- The C expression `path + 29`. It is evaluated only after `startswith`
has matched the 29 ASCII characters of the head, so skipping 29
characters and skipping 29 bytes are the same. -/
def path_plus_29 (path : String) : String := String.mk (path.data.drop 29)

/-- The function `get_user_for_path`. `lu0` is the indeterminate initial
content of the local `lu`, `out0` the content of `*_u` on entry; the
result is the return code and the content of `*_u` on exit. -/
def get_user_for_path (x : Externals) (m : Manager) (path : String)
    (lu0 : Nat) (out0 : Option User) : Int × Option User :=
  if !x.startswith path USER_PATH_HEAD then (-EINVAL, out0)
  else
    let (r, lu) := x.safe_atolu (path_plus_29 path) lu0
    if r < 0 then (r, out0)
    else
      match hashmap_get m.users lu with
      | none => (-ENOENT, out0)
      | some u => (0, some u)

/-! ## The message iterator of libdbus, as far as the marshalers use it -/

/-- The type codes `DBUS_TYPE_*` passed by this file. -/
inductive DBusType
  | ARRAY
  | STRUCT
  | STRING
  | OBJECT_PATH
deriving DecidableEq, Repr

/-- The three `DBusMessageIter` variables of the marshalers: the caller's
`i` and the locals `sub`, `sub2`. -/
inductive Iter
  | i
  | sub
  | sub2
deriving DecidableEq, Repr

/-- A value written into a message: a basic value, or a closed
container with its contained signature and members. -/
inductive Value
  | basic (ty : DBusType) (v : String)
  | container (ty : DBusType) (sig : Option String) (members : List Value)

/-- A fallible call made by a marshaler, with its arguments. -/
inductive Call
  | open_container (parent : Iter) (ty : DBusType) (sig : Option String) (child : Iter)
  | append_basic (it : Iter) (ty : DBusType) (v : String)
  | close_container (parent child : Iter)
  | session_bus_path (s : Session)
deriving DecidableEq, Repr

/-- State of a reply under construction. `ok k` is the outcome of the
`k`-th fallible call (a `false` is an allocation failure), `calls` logs
every call attempted with its outcome, `buf it` holds what has been
written through iterator `it` so far and `kind it` the container `it`
was opened for. -/
structure Bus where
  ok : Nat → Bool
  calls : List (Call × Bool)
  buf : Iter → List Value
  kind : Iter → DBusType × Option String

/-- Function update on iterators. -/
def Bus.set {α : Type} (f : Iter → α) (it : Iter) (v : α) : Iter → α :=
  fun j => if j = it then v else f j

/-- Outcome of the next fallible call. -/
def Bus.next (b : Bus) : Bool := b.ok b.calls.length

/-- Record a call with its outcome. -/
def Bus.log (b : Bus) (c : Call) (r : Bool) : Bus :=
  { b with calls := b.calls ++ [(c, r)] }

/-- The call `dbus_message_iter_open_container(parent, ty, sig, child)`: on
success `child` starts an empty container of that kind. -/
def dbus_message_iter_open_container (parent : Iter) (ty : DBusType)
    (sig : Option String) (child : Iter) (b : Bus) : Bool × Bus :=
  let b1 := b.log (Call.open_container parent ty sig child) b.next
  if b.next then
    (true, { b1 with buf := Bus.set b1.buf child [], kind := Bus.set b1.kind child (ty, sig) })
  else (false, b1)

/-- The call `dbus_message_iter_append_basic(it, ty, &v)`. -/
def dbus_message_iter_append_basic (it : Iter) (ty : DBusType) (v : String)
    (b : Bus) : Bool × Bus :=
  let b1 := b.log (Call.append_basic it ty v) b.next
  if b.next then
    (true, { b1 with buf := Bus.set b1.buf it (b1.buf it ++ [Value.basic ty v]) })
  else (false, b1)

/-- The call `dbus_message_iter_close_container(parent, child)`: on success
the finished container becomes one more value of `parent`. -/
def dbus_message_iter_close_container (parent child : Iter) (b : Bus) : Bool × Bus :=
  let b1 := b.log (Call.close_container parent child) b.next
  let done := Value.container (b1.kind child).1 (b1.kind child).2 (b1.buf child)
  if b.next then
    (true, { b1 with buf := Bus.set b1.buf parent (b1.buf parent ++ [done]) })
  else (false, b1)

/-- The call `session_bus_path(s)` of `logind-session-dbus.c`: the path it
builds is the parameter `enc`; whether it can allocate is read from the
oracle, `none` being the `NULL` result. -/
def session_bus_path (enc : Session → String) (s : Session) (b : Bus) : Option String × Bus :=
  let b1 := b.log (Call.session_bus_path s) b.next
  if b.next then (some (enc s), b1) else (none, b1)

/-! ## Structured marshalers -/

/-- Lines 79 to 90 of `bus_user_append_display`: the two appends joined
by `||`, then the close. -/
def append_display_members (id path : String) (b : Bus) : Int × Bus :=
  match dbus_message_iter_append_basic Iter.sub DBusType.STRING id b with
  | (false, b) => (-ENOMEM, b)
  | (true, b) =>
    match dbus_message_iter_append_basic Iter.sub DBusType.OBJECT_PATH path b with
    | (false, b) => (-ENOMEM, b)
    | (true, b) =>
      match dbus_message_iter_close_container Iter.i Iter.sub b with
      | (false, b) => (-ENOMEM, b)
      | (true, b) => (0, b)

/-- The function `bus_user_append_display`. -/
def bus_user_append_display (enc : Session → String) (u : User) (b : Bus) : Int × Bus :=
  match dbus_message_iter_open_container Iter.i DBusType.STRUCT none Iter.sub b with
  | (false, b) => (-ENOMEM, b)
  | (true, b) =>
    match u.display with
    | some d =>
      match session_bus_path enc d b with
      | (none, b) => (-ENOMEM, b)
      | (some p, b) => append_display_members d.id p b
    | none => append_display_members "" "/" b

/-- The function `bus_user_append_state`; `state` is
`user_state_to_string(user_get_state(u))`. -/
def bus_user_append_state (state : User → String) (u : User) (b : Bus) : Int × Bus :=
  match dbus_message_iter_append_basic Iter.i DBusType.STRING (state u) b with
  | (false, b) => (-ENOMEM, b)
  | (true, b) => (0, b)

/-- The `LIST_FOREACH` loop of `bus_user_append_sessions` over the rest
of the list; `some r` is a `return r` from inside the body, `none` is
the loop running to its end. -/
def sessions_foreach (enc : Session → String) : List Session → Bus → Option Int × Bus
  | [], b => (none, b)
  | session :: rest, b =>
    match dbus_message_iter_open_container Iter.sub DBusType.STRUCT none Iter.sub2 b with
    | (false, b) => (some (-ENOMEM), b)
    | (true, b) =>
      match session_bus_path enc session b with
      | (none, b) => (some (-ENOMEM), b)
      | (some p, b) =>
        match dbus_message_iter_append_basic Iter.sub2 DBusType.STRING session.id b with
        | (false, b) => (some (-ENOMEM), b)
        | (true, b) =>
          match dbus_message_iter_append_basic Iter.sub2 DBusType.OBJECT_PATH p b with
          | (false, b) => (some (-ENOMEM), b)
          | (true, b) =>
            match dbus_message_iter_close_container Iter.sub Iter.sub2 b with
            | (false, b) => (some (-ENOMEM), b)
            | (true, b) => sessions_foreach enc rest b

/-- The function `bus_user_append_sessions`. -/
def bus_user_append_sessions (enc : Session → String) (u : User) (b : Bus) : Int × Bus :=
  match dbus_message_iter_open_container Iter.i DBusType.ARRAY (some "so") Iter.sub b with
  | (false, b) => (-ENOMEM, b)
  | (true, b) =>
    match sessions_foreach enc u.sessions b with
    | (some r, b) => (r, b)
    | (none, b) =>
      match dbus_message_iter_close_container Iter.i Iter.sub b with
      | (false, b) => (-ENOMEM, b)
      | (true, b) => (0, b)

/-- The (identifier, object path) structure a session marshals to. -/
def session_struct (enc : Session → String) (s : Session) : Value :=
  Value.container DBusType.STRUCT none
    [Value.basic DBusType.STRING s.id, Value.basic DBusType.OBJECT_PATH (enc s)]

/-- The reply buffer after one pass through the loop body of
`bus_user_append_sessions` in which all five calls succeeded. -/
def after_body (enc : Session → String) (s : Session) (b : Bus) : Bus :=
  { ok := b.ok,
    calls := b.calls ++
      [(Call.open_container Iter.sub DBusType.STRUCT none Iter.sub2, true),
       (Call.session_bus_path s, true),
       (Call.append_basic Iter.sub2 DBusType.STRING s.id, true),
       (Call.append_basic Iter.sub2 DBusType.OBJECT_PATH (enc s), true),
       (Call.close_container Iter.sub Iter.sub2, true)],
    buf := Bus.set
      (Bus.set b.buf Iter.sub2
        [Value.basic DBusType.STRING s.id, Value.basic DBusType.OBJECT_PATH (enc s)])
      Iter.sub (b.buf Iter.sub ++ [session_struct enc s]),
    kind := Bus.set b.kind Iter.sub2 (DBusType.STRUCT, none) }

/-- Calls of a log that opened, respectively closed, a container. -/
def opens (l : List (Call × Bool)) : Nat :=
  l.countP (fun e => match e.1 with | Call.open_container _ _ _ _ => e.2 | _ => false)

def closes (l : List (Call × Bool)) : Nat :=
  l.countP (fun e => match e.1 with | Call.close_container _ _ => e.2 | _ => false)

/-- The failure policy of the marshalers, on a return code and the calls
made: either 0 with every call successful and as many containers closed
as opened, or `-ENOMEM` with a failed call that is the last call made. -/
def failure_policy (r : Int) (new : List (Call × Bool)) : Prop :=
  (r = 0 ∧ (∀ e ∈ new, e.2 = true) ∧ opens new = closes new) ∨
  (r = -ENOMEM ∧ ∃ pre c, new = pre ++ [(c, false)] ∧ ∀ e ∈ pre, e.2 = true)

/-- A reply buffer on which nothing has been written and every call succeeds. -/
def Bus.fresh : Bus :=
  ⟨fun _ => true, [], fun _ => [], fun _ => (DBusType.STRUCT, none)⟩

/-- A reply buffer on which the first `n` fallible calls succeed and the next fails. -/
def Bus.failing_at (n : Nat) : Bus :=
  ⟨fun k => decide (k ≠ n), [], fun _ => [], fun _ => (DBusType.STRUCT, none)⟩

/-! ## Property table and introspection data -/

/-- The macro `BUS_USER_INTERFACE`, the adjacent literals joined. -/
def BUS_USER_INTERFACE : String :=
  " <interface name=\"org.freedesktop.login1.User\">\n" ++
  "  <method name=\"Terminate\"/>\n" ++
  "  <property name=\"UID\" type=\"u\" access=\"read\"/>\n" ++
  "  <property name=\"GID\" type=\"u\" access=\"read\"/>\n" ++
  "  <property name=\"Name\" type=\"s\" access=\"read\"/>\n" ++
  "  <property name=\"RuntimePath\" type=\"s\" access=\"read\"/>\n" ++
  "  <property name=\"Service\" type=\"s\" access=\"read\"/>\n" ++
  "  <property name=\"ControlGroupPath\" type=\"s\" access=\"read\"/>\n" ++
  "  <property name=\"Display\" type=\"(so)\" access=\"read\"/>\n" ++
  "  <property name=\"State\" type=\"s\" access=\"read\"/>\n" ++
  "  <property name=\"Sessions\" type=\"a(so)\" access=\"read\"/>\n" ++
  " </interface>\n"

/-- The macros of `dbus-common.h` and of libdbus that `INTROSPECTION` and
`INTERFACES_LIST` splice in. -/
structure Macros where
  DBUS_INTROSPECT_1_0_XML_DOCTYPE_DECL_NODE : String
  BUS_PROPERTIES_INTERFACE : String
  BUS_PEER_INTERFACE : String
  BUS_INTROSPECTABLE_INTERFACE : String
  BUS_GENERIC_INTERFACES_LIST : String

/-- The macro `INTROSPECTION`. -/
def INTROSPECTION (k : Macros) : String :=
  k.DBUS_INTROSPECT_1_0_XML_DOCTYPE_DECL_NODE ++ "<node>\n" ++ BUS_USER_INTERFACE ++
  k.BUS_PROPERTIES_INTERFACE ++ k.BUS_PEER_INTERFACE ++ k.BUS_INTROSPECTABLE_INTERFACE ++
  "</node>\n"

/-- The macro `INTERFACES_LIST`. -/
def INTERFACES_LIST (k : Macros) : String :=
  k.BUS_GENERIC_INTERFACES_LIST ++ "org.freedesktop.login1.User\x00"

/-- The marshaling callbacks named in the table. -/
inductive Append
  | bus_property_append_uid
  | bus_property_append_gid
  | bus_property_append_string
  | bus_user_append_display
  | bus_user_append_state
  | bus_user_append_sessions
deriving DecidableEq, Repr

/-- The data pointer of a table row: the address of a numeric field, a
string field, or the user itself. -/
inductive Data
  | uid_field (v : Nat)
  | gid_field (v : Nat)
  | string (s : String)
  | user (u : User)
deriving DecidableEq, Repr

/-- A row of the table, the type `BusProperty` of `dbus-common.h`. -/
structure BusProperty where
  interface : String
  property : String
  append : Append
  signature : String
  data : Data
deriving DecidableEq, Repr

/-- The array `properties` of `user_message_dispatch`, up to its
all-`NULL` terminator row. -/
def properties (u : User) : List BusProperty :=
  [ ⟨"org.freedesktop.login1.User", "UID", Append.bus_property_append_uid, "u", Data.uid_field u.uid⟩,
    ⟨"org.freedesktop.login1.User", "GID", Append.bus_property_append_gid, "u", Data.gid_field u.gid⟩,
    ⟨"org.freedesktop.login1.User", "Name", Append.bus_property_append_string, "s", Data.string u.name⟩,
    ⟨"org.freedesktop.login1.User", "RuntimePath", Append.bus_property_append_string, "s", Data.string u.runtime_path⟩,
    ⟨"org.freedesktop.login1.User", "ControlGroupPath", Append.bus_property_append_string, "s", Data.string u.cgroup_path⟩,
    ⟨"org.freedesktop.login1.User", "Service", Append.bus_property_append_string, "s", Data.string u.service⟩,
    ⟨"org.freedesktop.login1.User", "Display", Append.bus_user_append_display, "(so)", Data.user u⟩,
    ⟨"org.freedesktop.login1.User", "State", Append.bus_user_append_state, "s", Data.user u⟩,
    ⟨"org.freedesktop.login1.User", "Sessions", Append.bus_user_append_sessions, "a(so)", Data.user u⟩ ]

/-- Name and type signature of every row of a table. -/
def table_pairs (t : List BusProperty) : List (String × String) :=
  t.map (fun p => (p.property, p.signature))

/-- If `s` starts with `pre`, what follows it. -/
def after_literal : List Char → List Char → Option (List Char)
  | [], s => some s
  | _ :: _, [] => none
  | p :: ps, c :: cs => if p = c then after_literal ps cs else none

/-- The characters up to the next double quote (code point 34), and what
follows that quote. -/
def until_quote : List Char → List Char × List Char
  | [] => ([], [])
  | c :: cs => if c = Char.ofNat 34 then ([], cs) else ((until_quote cs).1.cons c, (until_quote cs).2)

/-- The `name` and `type` attributes of a `<property>` element starting here. -/
def property_element (s : List Char) : Option (String × String) :=
  match after_literal "<property name=\"".data s with
  | none => none
  | some r =>
    match after_literal " type=\"".data (until_quote r).2 with
    | none => none
    | some t => some (String.mk (until_quote r).1, String.mk (until_quote t).1)

/-- The `<property>` elements of an introspection text, in document order. -/
def xml_properties : List Char → List (String × String)
  | [] => []
  | c :: cs =>
    match property_element (c :: cs) with
    | some e => e :: xml_properties cs
    | none => xml_properties cs

/-- The `name` attribute of a `<method>` element starting here. -/
def method_element (s : List Char) : Option String :=
  match after_literal "<method name=\"".data s with
  | none => none
  | some r => some (String.mk (until_quote r).1)

/-- The `<method>` elements of an introspection text, in document order. -/
def xml_methods : List Char → List String
  | [] => []
  | c :: cs =>
    match method_element (c :: cs) with
    | some e => e :: xml_methods cs
    | none => xml_methods cs

/-- Modelled from the spec: the rows a `GetAll` of the missing
`bus_default_message_handler` (`dbus-common.c`) answers with, §4.4: "a map
of every property in that interface ..., built by iterating the full
table filtered to that interface". -/
def get_all_rows (interface : String) (t : List BusProperty) : List (String × String) :=
  table_pairs (t.filter (fun p => p.interface = interface))

/-! ## Dispatcher and handler -/

/-- The enumeration `DBusHandlerResult` of libdbus. -/
inductive DBusHandlerResult
  | HANDLED
  | NOT_YET_HANDLED
  | NEED_MEMORY
deriving DecidableEq, Repr

/-- What this file reads of a `DBusMessage`: its object path, and the
interface and member it calls. -/
structure DBusMessage where
  path : String
  interface : String
  member : String
deriving DecidableEq, Repr

/-- A `DBusError` once set: fault name and text. -/
structure DBusError where
  name : String
  message : String
deriving DecidableEq, Repr

/-- The macro `DBUS_ERROR_UNKNOWN_OBJECT` of libdbus. -/
def DBUS_ERROR_UNKNOWN_OBJECT : String := "org.freedesktop.DBus.Error.UnknownObject"

/-- A connection handle. -/
abbrev DBusConnection := Nat

/-- What the handler can be seen doing from outside: the two calls into
`dbus-common.c` with their arguments, and the Entity Action
`terminate(entity)` that §6 of the spec names. -/
inductive Action
  | bus_send_error_reply (c : DBusConnection) (m : DBusMessage) (e : Option DBusError) (r : Int)
  | bus_default_message_handler (c : DBusConnection) (m : DBusMessage)
      (introspection interfaces : String) (table : List BusProperty)
  | terminate (u : User)
deriving DecidableEq, Repr

/-- Return values of the two functions of `dbus-common.c`. -/
structure DbusCommon where
  bus_send_error_reply : DBusConnection → DBusMessage → Option DBusError → Int → DBusHandlerResult
  bus_default_message_handler :
    DBusConnection → DBusMessage → String → String → List BusProperty → DBusHandlerResult

/-- The function `user_message_dispatch`: the result and the actions performed. -/
def user_message_dispatch (d : DbusCommon) (k : Macros) (u : User)
    (connection : DBusConnection) (message : DBusMessage) : DBusHandlerResult × List Action :=
  (d.bus_default_message_handler connection message (INTROSPECTION k) (INTERFACES_LIST k)
      (properties u),
   [Action.bus_default_message_handler connection message (INTROSPECTION k) (INTERFACES_LIST k)
      (properties u)])

/-- The function `user_message_handler`. `lu0` and `u0` are the indeterminate
initial contents of the locals `lu` and `u`; `none` as a result is the
failed `assert(u)` of `user_message_dispatch`. -/
def user_message_handler (x : Externals) (d : DbusCommon) (k : Macros) (m : Manager)
    (connection : DBusConnection) (message : DBusMessage) (lu0 : Nat) (u0 : Option User) :
    Option (DBusHandlerResult × List Action) :=
  let (r, u) := get_user_for_path x m message.path lu0 u0
  if r < 0 then
    if r = -ENOMEM then some (DBusHandlerResult.NEED_MEMORY, [])
    else if r = -ENOENT then
      let e : DBusError := ⟨DBUS_ERROR_UNKNOWN_OBJECT, "Unknown user"⟩
      some (d.bus_send_error_reply connection message (some e) r,
            [Action.bus_send_error_reply connection message (some e) r])
    else
      some (d.bus_send_error_reply connection message none r,
            [Action.bus_send_error_reply connection message none r])
  else
    match u with
    | some u => some (user_message_dispatch d k u connection message)
    | none => none

/-- An action is the dispatcher's call into the generic handler. -/
def Action.is_dispatch : Action → Bool
  | Action.bus_default_message_handler _ _ _ _ _ => true
  | _ => false

/-- Modelled from the spec: the return value of `bus_default_message_handler`
of the missing `dbus-common.c`, §4.4 step 2: property `Get`/`GetAll`,
introspection and the standard meta-interfaces are answered, and
"anything else yields not handled". -/
def spec_default_handler (_c : DBusConnection) (m : DBusMessage) (_introspection _interfaces : String)
    (_table : List BusProperty) : DBusHandlerResult :=
  if m.interface = "org.freedesktop.DBus.Properties" ∨
     m.interface = "org.freedesktop.DBus.Introspectable" ∨
     m.interface = "org.freedesktop.DBus.Peer" then DBusHandlerResult.HANDLED
  else DBusHandlerResult.NOT_YET_HANDLED

/-- Modelled from the spec: the return value of `bus_send_error_reply` of the
missing `dbus-common.c`; a fault reply sent counts as the call handled (§4.5). -/
def spec_send_error_reply (_c : DBusConnection) (_m : DBusMessage) (_e : Option DBusError)
    (_r : Int) : DBusHandlerResult := DBusHandlerResult.HANDLED

/-- The two functions of `dbus-common.c` as the spec describes them. -/
def spec_dbus_common : DbusCommon := ⟨spec_send_error_reply, spec_default_handler⟩

/-- Empty stand-ins for the spliced macros. -/
def no_macros : Macros := ⟨"", "", "", "", ""⟩

/-! ## Sample data -/

def sample_session_1 : Session := ⟨"c1"⟩

def sample_session_2 : Session := ⟨"c2"⟩

/-- A session path encoder in the style of `logind-session-dbus.c`. -/
def sample_enc (s : Session) : String := "/org/freedesktop/login1/session/" ++ s.id

/-- A user with two sessions, the first one being its display. -/
def sample_user : User :=
  ⟨1000, 100, "alice", "/run/user/1000", "/user/alice", "user@1000.service",
   some sample_session_1, [sample_session_1, sample_session_2]⟩

/-- A user without sessions. -/
def idle_user : User := ⟨0, 0, "root", "/run/user/0", "/user/root", "user@0.service", none, []⟩

/-- A manager knowing exactly these two users. -/
def sample_manager : Manager :=
  ⟨fun key => if key = 1000 then some sample_user else if key = 0 then some idle_user else none⟩

end Logind

set_option maxRecDepth 4096

namespace Logind

/-! ## Decimal rendering and reading -/

theorem is_digit_digitChar (d : Nat) (h : d < 10) : is_digit (Nat.digitChar d) = true := by
  interval_cases d <;> decide

theorem digitChar_value (d : Nat) (h : d < 10) : (Nat.digitChar d).toNat - 48 = d := by
  interval_cases d <;> decide

theorem digitChar_eq_zero (d : Nat) (h : d < 10) (hc : Nat.digitChar d = '0') : d = 0 := by
  interval_cases d <;> first | rfl | (exact absurd hc (by decide))

theorem decimal_value_snoc (ds : List Char) (c : Char) :
    decimal_value (ds ++ [c]) = 10 * decimal_value ds + (c.toNat - 48) := by
  simp [decimal_value, List.foldl_append]

theorem is_decimal_snoc (ds : List Char) (c : Char) (hd : ds.all is_digit = true)
    (hc : is_digit c = true) : is_decimal (ds ++ [c]) = true := by
  simp [is_decimal, List.all_append, hd, hc]

theorem renders_core (fuel : Nat) : ∀ (n : Nat) (acc : List Char), n < fuel →
    ∃ ds, Nat.toDigitsCore 10 fuel n acc = ds ++ acc ∧ renders ds n ∧ (ds = ['0'] → n = 0) := by
  induction fuel with
  | zero => intro n acc h; omega
  | succ fuel ih =>
    intro n acc hn
    have hmod : n % 10 < 10 := Nat.mod_lt _ (by decide)
    by_cases hq : n / 10 = 0
    · have hlt : n < 10 := by omega
      have hm : n % 10 = n := Nat.mod_eq_of_lt hlt
      refine ⟨[Nat.digitChar n], ?_, ⟨?_, ?_, ?_⟩, ?_⟩
      · simp [Nat.toDigitsCore, hq, hm]
      · simp [is_decimal, is_digit_digitChar n hlt]
      · simp [decimal_value, digitChar_value n hlt]
      · intro h0
        simp only [List.head?_cons, Option.some.injEq] at h0
        rw [h0]
      · intro h0
        simp only [List.cons.injEq, and_true] at h0
        exact digitChar_eq_zero n hlt h0
    · obtain ⟨ds, hds, ⟨hdec, hval, hlead⟩, hzero⟩ :=
        ih (n / 10) (Nat.digitChar (n % 10) :: acc) (by omega)
      have hall : ds.all is_digit = true := by
        simp only [is_decimal, Bool.and_eq_true] at hdec
        exact hdec.2
      have hne : ds ≠ [] := by
        intro h
        rw [h] at hdec
        simp [is_decimal] at hdec
      refine ⟨ds ++ [Nat.digitChar (n % 10)], ?_, ⟨?_, ?_, ?_⟩, ?_⟩
      · simp [Nat.toDigitsCore, hq, hds]
      · exact is_decimal_snoc ds _ hall (is_digit_digitChar _ hmod)
      · rw [decimal_value_snoc, hval, digitChar_value _ hmod]
        omega
      · intro h0
        have h1 : ds.head? = some '0' := by
          cases ds with
          | nil => exact absurd rfl hne
          | cons a t => simpa using h0
        exact absurd (hzero (hlead h1)) hq
      · intro h0
        cases ds with
        | nil => exact absurd rfl hne
        | cons a t =>
          cases t <;> simp at h0

theorem renders_toDigits (n : Nat) : renders (Nat.toDigits 10 n) n := by
  obtain ⟨ds, hds, hr, _⟩ := renders_core (n + 1) n [] (Nat.lt_succ_self n)
  have : Nat.toDigits 10 n = ds := by simpa [Nat.toDigits] using hds
  rw [this]
  exact hr

/-! ## Path codec -/

theorem head_length : USER_PATH_HEAD.data.length = 29 := by decide

theorem startswith_head (s : String) : startswith (USER_PATH_HEAD ++ s) USER_PATH_HEAD = true := by
  simp [startswith, List.isPrefixOf_iff_prefix]

theorem path_plus_29_head (s : String) : path_plus_29 (USER_PATH_HEAD ++ s) = s := by
  have h : (USER_PATH_HEAD.data ++ s.data).drop 29 = s.data := by
    rw [← head_length]
    exact List.drop_left _ _
  simp [path_plus_29, h]

theorem safe_atolu_fmt (n lu0 : Nat) (h : n < 2 ^ ULONG_BITS) :
    safe_atolu (fmt_llu n) lu0 = (0, n) := by
  obtain ⟨hdec, hval, _⟩ := renders_toDigits n
  simp [safe_atolu, fmt_llu, hdec, hval, h]

theorem fmt_llu_injective (a b : Nat) (h : fmt_llu a = fmt_llu b) : a = b := by
  have h1 : Nat.toDigits 10 a = Nat.toDigits 10 b := congrArg String.data h
  have ha := (renders_toDigits a).2.1
  have hb := (renders_toDigits b).2.1
  rw [← ha, ← hb, h1]

/-- C8: for an identifier that fits the `unsigned long long` it is cast to
(every `uid_t` does), `user_bus_path` with a successful allocation returns
`"/org/freedesktop/login1/user/"` followed by a run of decimal digits
whose value is the identifier, without sign and without a leading zero
(other than `0` itself); when the allocation fails it returns `NULL`;
and two users with equal paths have equal identifiers. -/
theorem user_bus_path_decimal_injective (u v : User)
    (hu : u.uid < 2 ^ ULONG_BITS) (hv : v.uid < 2 ^ ULONG_BITS) :
    (∃ ds : List Char, user_bus_path true u = some (USER_PATH_HEAD ++ String.mk ds) ∧
        renders ds u.uid) ∧
    user_bus_path false u = none ∧
    (user_bus_path true u = user_bus_path true v → u.uid = v.uid) := by
  refine ⟨⟨Nat.toDigits 10 u.uid, ?_, renders_toDigits _⟩, rfl, ?_⟩
  · simp [user_bus_path, fmt_llu, Nat.mod_eq_of_lt hu]
  · intro h
    simp only [user_bus_path, if_true, Option.some.injEq, Nat.mod_eq_of_lt hu,
      Nat.mod_eq_of_lt hv] at h
    have h2 : fmt_llu u.uid = fmt_llu v.uid := by
      have h3 := congrArg String.data h
      simp only [String.data_append] at h3
      exact String.ext (List.append_cancel_left h3)
    exact fmt_llu_injective _ _ h2

theorem user_bus_path_decimal_injective_witness :
    (∃ ds : List Char, user_bus_path true sample_user = some (USER_PATH_HEAD ++ String.mk ds) ∧
        renders ds sample_user.uid) ∧
    user_bus_path false sample_user = none ∧
    (user_bus_path true sample_user = user_bus_path true idle_user →
      sample_user.uid = idle_user.uid) :=
  user_bus_path_decimal_injective sample_user idle_user (by decide) (by decide)

/-- C1: if the manager's map holds an entity under the identifier of `u`
(an identifier that fits `unsigned long`, as every `uid_t` does), then
`user_bus_path(u)` yields a path on which `get_user_for_path` returns 0
and stores exactly that entity, whatever the output held before. -/
theorem get_user_for_path_user_bus_path (m : Manager) (u e : User) (lu0 : Nat)
    (out0 : Option User) (hu : u.uid < 2 ^ ULONG_BITS)
    (hm : hashmap_get m.users u.uid = some e) :
    ∃ p, user_bus_path true u = some p ∧
      get_user_for_path spec_externals m p lu0 out0 = (0, some e) := by
  refine ⟨USER_PATH_HEAD ++ fmt_llu u.uid, ?_, ?_⟩
  · simp [user_bus_path, Nat.mod_eq_of_lt hu]
  · simp [get_user_for_path, spec_externals, startswith_head, path_plus_29_head,
      safe_atolu_fmt u.uid lu0 hu, hm]

theorem get_user_for_path_user_bus_path_witness :
    ∃ p, user_bus_path true sample_user = some p ∧
      get_user_for_path spec_externals sample_manager p 7 none = (0, some sample_user) :=
  get_user_for_path_user_bus_path sample_manager sample_user sample_user 7 none
    (by decide) (by decide)

/-- C2: with the helpers as the spec describes them, `get_user_for_path`
returns `-EINVAL` on a path that does not start with the 29 characters
`"/org/freedesktop/login1/user/"`, and on a path that does but whose
rest is not a run of one or more decimal digits; a digit run too large
for `unsigned long` gives `-ERANGE`. Each of these codes is negative and
differs from `-ENOENT`, the output is left as it was, and the result is
the same for every manager, so no entity is looked up. The rests `""`,
`"abc"` and `"-1"` are such cases. -/
theorem get_user_for_path_malformed (m : Manager) (p : String) (lu0 : Nat)
    (out0 : Option User) :
    USER_PATH_HEAD.length = 29 ∧
    (startswith p USER_PATH_HEAD = false →
      get_user_for_path spec_externals m p lu0 out0 = (-EINVAL, out0)) ∧
    (startswith p USER_PATH_HEAD = true → is_decimal (path_plus_29 p).data = false →
      get_user_for_path spec_externals m p lu0 out0 = (-EINVAL, out0)) ∧
    (startswith p USER_PATH_HEAD = true → is_decimal (path_plus_29 p).data = true →
      ¬ decimal_value (path_plus_29 p).data < 2 ^ ULONG_BITS →
      get_user_for_path spec_externals m p lu0 out0 = (-ERANGE, out0)) ∧
    (-EINVAL < 0 ∧ -EINVAL ≠ -ENOENT ∧ -ERANGE < 0 ∧ -ERANGE ≠ -ENOENT) ∧
    is_decimal "".data = false ∧ is_decimal "abc".data = false ∧
    is_decimal "-1".data = false := by
  refine ⟨by decide, ?_, ?_, ?_, by decide, by decide, by decide, by decide⟩
  · intro h
    simp [get_user_for_path, spec_externals, h]
  · intro h hd
    simp [get_user_for_path, spec_externals, h, safe_atolu, hd, EINVAL]
  · intro h hd hv
    simp [get_user_for_path, spec_externals, h, safe_atolu, hd, hv, ERANGE]

theorem get_user_for_path_malformed_witness :
    get_user_for_path spec_externals sample_manager "/org/freedesktop/login1/session/1000"
        7 (some idle_user) = (-EINVAL, some idle_user) ∧
    get_user_for_path spec_externals sample_manager "/org/freedesktop/login1/user/-1"
        7 (some idle_user) = (-EINVAL, some idle_user) ∧
    get_user_for_path spec_externals sample_manager
        "/org/freedesktop/login1/user/99999999999999999999" 7 none = (-ERANGE, none) :=
  ⟨(get_user_for_path_malformed sample_manager "/org/freedesktop/login1/session/1000" 7
      (some idle_user)).2.1 (by decide),
   (get_user_for_path_malformed sample_manager "/org/freedesktop/login1/user/-1" 7
      (some idle_user)).2.2.1 (by decide) (by decide),
   (get_user_for_path_malformed sample_manager
      "/org/freedesktop/login1/user/99999999999999999999" 7 none).2.2.2.1
      (by decide) (by decide) (by decide)⟩

/-! ## Handler and dispatcher -/

theorem get_user_for_path_cases (x : Externals) (m : Manager) (p : String) (lu0 : Nat)
    (out0 : Option User) :
    ((get_user_for_path x m p lu0 out0).1 < 0 ∧ (get_user_for_path x m p lu0 out0).2 = out0) ∨
    (∃ u, get_user_for_path x m p lu0 out0 = (0, some u) ∧ x.startswith p USER_PATH_HEAD = true ∧
      0 ≤ (x.safe_atolu (path_plus_29 p) lu0).1 ∧
      hashmap_get m.users (x.safe_atolu (path_plus_29 p) lu0).2 = some u) := by
  unfold get_user_for_path
  cases hs : x.startswith p USER_PATH_HEAD with
  | false => left; simp [EINVAL]
  | true =>
    simp only [Bool.not_true, Bool.false_eq_true, if_false]
    by_cases hr : (x.safe_atolu (path_plus_29 p) lu0).1 < 0
    · left; simp [hr]
    · cases hl : hashmap_get m.users (x.safe_atolu (path_plus_29 p) lu0).2 with
      | none => left; simp [hr, hl, ENOENT]
      | some u => right; exact ⟨u, by simp [hr, hl], trivial, by omega, rfl⟩

theorem handler_on_failure (x : Externals) (d : DbusCommon) (k : Macros)
    (m : Manager) (c : DBusConnection) (msg : DBusMessage) (lu0 : Nat) (u0 : Option User)
    (hr : (get_user_for_path x m msg.path lu0 u0).1 < 0) :
    user_message_handler x d k m c msg lu0 u0 =
      some (
        if (get_user_for_path x m msg.path lu0 u0).1 = -ENOMEM then
          (DBusHandlerResult.NEED_MEMORY, [])
        else if (get_user_for_path x m msg.path lu0 u0).1 = -ENOENT then
          (d.bus_send_error_reply c msg (some ⟨DBUS_ERROR_UNKNOWN_OBJECT, "Unknown user"⟩)
             (get_user_for_path x m msg.path lu0 u0).1,
           [Action.bus_send_error_reply c msg (some ⟨DBUS_ERROR_UNKNOWN_OBJECT, "Unknown user"⟩)
             (get_user_for_path x m msg.path lu0 u0).1])
        else
          (d.bus_send_error_reply c msg none (get_user_for_path x m msg.path lu0 u0).1,
           [Action.bus_send_error_reply c msg none (get_user_for_path x m msg.path lu0 u0).1])) ∧
    (∀ res, user_message_handler x d k m c msg lu0 u0 = some res →
      ∀ a ∈ res.2, a.is_dispatch = false) := by
  have main : user_message_handler x d k m c msg lu0 u0 =
      some (
        if (get_user_for_path x m msg.path lu0 u0).1 = -ENOMEM then
          (DBusHandlerResult.NEED_MEMORY, [])
        else if (get_user_for_path x m msg.path lu0 u0).1 = -ENOENT then
          (d.bus_send_error_reply c msg (some ⟨DBUS_ERROR_UNKNOWN_OBJECT, "Unknown user"⟩)
             (get_user_for_path x m msg.path lu0 u0).1,
           [Action.bus_send_error_reply c msg (some ⟨DBUS_ERROR_UNKNOWN_OBJECT, "Unknown user"⟩)
             (get_user_for_path x m msg.path lu0 u0).1])
        else
          (d.bus_send_error_reply c msg none (get_user_for_path x m msg.path lu0 u0).1,
           [Action.bus_send_error_reply c msg none (get_user_for_path x m msg.path lu0 u0).1])) := by
    unfold user_message_handler
    simp only [hr, if_true]
    split_ifs <;> rfl
  refine ⟨main, ?_⟩
  intro res hres a ha
  rw [main] at hres
  simp only [Option.some.injEq] at hres
  subst hres
  split_ifs at ha <;> simp at ha <;> subst ha <;> rfl

/-- C3: when the path of a message decodes with an error `r < 0`, the
handler returns `NEED_MEMORY` without performing any action if
`r = -ENOMEM`; performs exactly one `bus_send_error_reply` with the fault
`DBUS_ERROR_UNKNOWN_OBJECT`, `"Unknown user"` and `r` if `r = -ENOENT`; and
performs exactly one `bus_send_error_reply` with no fault set and `r`
otherwise, returning what that call returns. No assertion fails, none of
the actions is the call of the dispatcher, and a well-formed path whose
identifier the map does not hold decodes with `-ENOENT`. -/
theorem user_message_handler_decode_failure (x : Externals) (d : DbusCommon) (k : Macros)
    (m : Manager) (c : DBusConnection) (msg : DBusMessage) (lu0 : Nat) (u0 : Option User)
    (hr : (get_user_for_path x m msg.path lu0 u0).1 < 0) :
    user_message_handler x d k m c msg lu0 u0 =
      some (
        if (get_user_for_path x m msg.path lu0 u0).1 = -ENOMEM then
          (DBusHandlerResult.NEED_MEMORY, [])
        else if (get_user_for_path x m msg.path lu0 u0).1 = -ENOENT then
          (d.bus_send_error_reply c msg (some ⟨DBUS_ERROR_UNKNOWN_OBJECT, "Unknown user"⟩)
             (get_user_for_path x m msg.path lu0 u0).1,
           [Action.bus_send_error_reply c msg (some ⟨DBUS_ERROR_UNKNOWN_OBJECT, "Unknown user"⟩)
             (get_user_for_path x m msg.path lu0 u0).1])
        else
          (d.bus_send_error_reply c msg none (get_user_for_path x m msg.path lu0 u0).1,
           [Action.bus_send_error_reply c msg none (get_user_for_path x m msg.path lu0 u0).1])) ∧
    (∀ res, user_message_handler x d k m c msg lu0 u0 = some res →
      ∀ a ∈ res.2, a.is_dispatch = false) ∧
    (x.startswith msg.path USER_PATH_HEAD = true →
      (x.safe_atolu (path_plus_29 msg.path) lu0).1 = 0 →
      hashmap_get m.users (x.safe_atolu (path_plus_29 msg.path) lu0).2 = none →
      (get_user_for_path x m msg.path lu0 u0).1 = -ENOENT) := by
  refine ⟨(handler_on_failure x d k m c msg lu0 u0 hr).1,
    (handler_on_failure x d k m c msg lu0 u0 hr).2, ?_⟩
  intro hs h0 hn
  simp [get_user_for_path, hs, h0, hn]

theorem user_message_handler_decode_failure_witness :
    user_message_handler spec_externals spec_dbus_common no_macros sample_manager 1
        ⟨"/org/freedesktop/login1/user/7", "org.freedesktop.DBus.Properties", "GetAll"⟩ 0 none =
      some (DBusHandlerResult.HANDLED,
        [Action.bus_send_error_reply 1
          ⟨"/org/freedesktop/login1/user/7", "org.freedesktop.DBus.Properties", "GetAll"⟩
          (some ⟨DBUS_ERROR_UNKNOWN_OBJECT, "Unknown user"⟩) (-ENOENT)]) :=
  (user_message_handler_decode_failure spec_externals spec_dbus_common no_macros sample_manager 1
    ⟨"/org/freedesktop/login1/user/7", "org.freedesktop.DBus.Properties", "GetAll"⟩ 0 none
    (by decide)).1

/-- C10: `get_user_for_path` either returns a negative code and leaves its
output as it was, or returns 0 and stores the entity the manager's map
holds under the identifier `safe_atolu` read from the path behind the
head. The handler calls `user_message_dispatch` exactly in the second
case, with that entity (so `assert(u)` holds); in the first case none of
its actions is the dispatcher's. -/
theorem user_message_handler_decode_then_branch (x : Externals) (d : DbusCommon) (k : Macros)
    (m : Manager) (c : DBusConnection) (msg : DBusMessage) (lu0 : Nat) (u0 : Option User) :
    ((get_user_for_path x m msg.path lu0 u0).1 = 0 →
      ∃ u, hashmap_get m.users (x.safe_atolu (path_plus_29 msg.path) lu0).2 = some u ∧
        (get_user_for_path x m msg.path lu0 u0).2 = some u ∧
        user_message_handler x d k m c msg lu0 u0 =
          some (user_message_dispatch d k u c msg) ∧
        ∃ a ∈ (user_message_dispatch d k u c msg).2, a.is_dispatch = true) ∧
    ((get_user_for_path x m msg.path lu0 u0).1 ≠ 0 →
      (get_user_for_path x m msg.path lu0 u0).1 < 0 ∧
      (get_user_for_path x m msg.path lu0 u0).2 = u0 ∧
      ∃ res, user_message_handler x d k m c msg lu0 u0 = some res ∧
        ∀ a ∈ res.2, a.is_dispatch = false) := by
  rcases get_user_for_path_cases x m msg.path lu0 u0 with ⟨hneg, hout⟩ | ⟨u, hu, _, _, hget⟩
  · refine ⟨fun h0 => by omega, fun _ => ⟨hneg, hout, ?_⟩⟩
    have h := handler_on_failure x d k m c msg lu0 u0 hneg
    exact ⟨_, h.1, h.2 _ h.1⟩
  · refine ⟨fun _ => ⟨u, hget, by rw [hu], ?_, ?_⟩, fun hne => absurd (by rw [hu]) hne⟩
    · unfold user_message_handler
      rw [hu]
      simp
    · exact ⟨_, List.mem_singleton.mpr rfl, rfl⟩

theorem user_message_handler_decode_then_branch_witness :
    ∃ u, hashmap_get sample_manager.users
          (spec_externals.safe_atolu (path_plus_29 "/org/freedesktop/login1/user/1000") 0).2
          = some u ∧
      (get_user_for_path spec_externals sample_manager "/org/freedesktop/login1/user/1000"
          0 none).2 = some u ∧
      user_message_handler spec_externals spec_dbus_common no_macros sample_manager 1
          ⟨"/org/freedesktop/login1/user/1000", "org.freedesktop.DBus.Properties", "GetAll"⟩
          0 none =
        some (user_message_dispatch spec_dbus_common no_macros u 1
          ⟨"/org/freedesktop/login1/user/1000", "org.freedesktop.DBus.Properties", "GetAll"⟩) ∧
      ∃ a ∈ (user_message_dispatch spec_dbus_common no_macros u 1
          ⟨"/org/freedesktop/login1/user/1000", "org.freedesktop.DBus.Properties", "GetAll"⟩).2,
        a.is_dispatch = true :=
  (user_message_handler_decode_then_branch spec_externals spec_dbus_common no_macros
    sample_manager 1
    ⟨"/org/freedesktop/login1/user/1000", "org.freedesktop.DBus.Properties", "GetAll"⟩
    0 none).1 (by decide)

/-- C4, the code at the failing input: for a `Terminate` call on
`org.freedesktop.login1.User` addressed to a user the manager knows, the
handler performs a single action, the call of
`bus_default_message_handler` with the property table; the entity's
terminate action is not among its actions, and with the generic handler
as the spec describes it the call is left unhandled. The introspection
text handed over advertises the method all the same. -/
theorem user_message_dispatch_terminate_unhandled :
    user_message_handler spec_externals spec_dbus_common no_macros sample_manager 1
        ⟨"/org/freedesktop/login1/user/1000", "org.freedesktop.login1.User", "Terminate"⟩
        0 none =
      some (DBusHandlerResult.NOT_YET_HANDLED,
        [Action.bus_default_message_handler 1
          ⟨"/org/freedesktop/login1/user/1000", "org.freedesktop.login1.User", "Terminate"⟩
          (INTROSPECTION no_macros) (INTERFACES_LIST no_macros) (properties sample_user)]) ∧
    (∀ (d : DbusCommon) (k : Macros) (u : User) (c : DBusConnection) (msg : DBusMessage),
      Action.terminate u ∉ (user_message_dispatch d k u c msg).2 ∧
      (user_message_dispatch d k u c msg).2.length = 1) ∧
    xml_methods BUS_USER_INTERFACE.data = ["Terminate"] := by
  refine ⟨by rfl, ?_, by decide⟩
  intro d k u c msg
  simp [user_message_dispatch]

/-! ## Property table against the introspection text -/

theorem table_pairs_properties (u : User) :
    table_pairs (properties u) =
      [("UID", "u"), ("GID", "u"), ("Name", "s"), ("RuntimePath", "s"),
       ("ControlGroupPath", "s"), ("Service", "s"), ("Display", "(so)"), ("State", "s"),
       ("Sessions", "a(so)")] := rfl

theorem xml_properties_user_interface :
    xml_properties BUS_USER_INTERFACE.data =
      [("UID", "u"), ("GID", "u"), ("Name", "s"), ("RuntimePath", "s"), ("Service", "s"),
       ("ControlGroupPath", "s"), ("Display", "(so)"), ("State", "s"),
       ("Sessions", "a(so)")] := by decide

/-- C5: for every user the table of `user_message_dispatch` has exactly 9
rows before its terminator, all of interface
`org.freedesktop.login1.User`, with pairwise distinct names; its (name,
signature) pairs are a rearrangement of the (name, type) pairs of the
`<property>` elements of `BUS_USER_INTERFACE`, which are `UID:u`, `GID:u`,
`Name:s`, `RuntimePath:s`, `Service:s`, `ControlGroupPath:s`, `Display:(so)`,
`State:s`, `Sessions:a(so)`, so a pair is in the one exactly if it is in
the other; and a `GetAll` that filters the table by that interface
enumerates exactly the table's 9 pairs. -/
theorem properties_match_introspection (u : User) :
    (properties u).length = 9 ∧
    (∀ p ∈ properties u, p.interface = "org.freedesktop.login1.User") ∧
    ((properties u).map (fun p => p.property)).Nodup ∧
    xml_properties BUS_USER_INTERFACE.data =
      [("UID", "u"), ("GID", "u"), ("Name", "s"), ("RuntimePath", "s"), ("Service", "s"),
       ("ControlGroupPath", "s"), ("Display", "(so)"), ("State", "s"),
       ("Sessions", "a(so)")] ∧
    (table_pairs (properties u)).Perm (xml_properties BUS_USER_INTERFACE.data) ∧
    (∀ e, e ∈ table_pairs (properties u) ↔ e ∈ xml_properties BUS_USER_INTERFACE.data) ∧
    get_all_rows "org.freedesktop.login1.User" (properties u) = table_pairs (properties u) ∧
    (get_all_rows "org.freedesktop.login1.User" (properties u)).length = 9 := by
  have hperm : (table_pairs (properties u)).Perm (xml_properties BUS_USER_INTERFACE.data) := by
    rw [table_pairs_properties, xml_properties_user_interface]
    decide
  refine ⟨rfl, ?_, ?_, xml_properties_user_interface, hperm, fun e => hperm.mem_iff, ?_, ?_⟩
  · intro p hp
    simp only [properties, List.mem_cons, List.mem_singleton, List.not_mem_nil, or_false] at hp
    rcases hp with h | h | h | h | h | h | h | h | h <;> rw [h]
  · simp only [properties, List.map_cons, List.map_nil]
    decide
  · simp [get_all_rows, properties]
  · simp [get_all_rows, properties, table_pairs]

theorem sessions_foreach_cons_eq (enc : Session → String) (s : Session) (rest : List Session)
    (b : Bus) (h : ∀ j, j < 5 → b.ok (b.calls.length + j) = true) :
    sessions_foreach enc (s :: rest) b = sessions_foreach enc rest (after_body enc s b) := by
  have h1 : b.ok b.calls.length = true := h 0 (by decide)
  have h2 := h 1 (by decide)
  have h3 := h 2 (by decide)
  have h4 := h 3 (by decide)
  have h5 := h 4 (by decide)
  simp only [sessions_foreach, dbus_message_iter_open_container, session_bus_path,
    dbus_message_iter_append_basic, dbus_message_iter_close_container, Bus.next, Bus.log,
    List.length_append, List.length_singleton, h1, h2, h3, h4, h5, if_true]
  congr 1
  simp only [after_body, Bus.mk.injEq, List.append_assoc, List.singleton_append, true_and,
    and_true]
  refine ⟨by simp, ?_⟩
  funext j
  cases j <;> simp [Bus.set, session_struct]

theorem sessions_foreach_cons (enc : Session → String) (s : Session) (rest : List Session)
    (b : Bus) :
    (∃ pre c, (sessions_foreach enc (s :: rest) b).1 = some (-ENOMEM) ∧
        (sessions_foreach enc (s :: rest) b).2.calls = b.calls ++ (pre ++ [(c, false)]) ∧
        (∀ e ∈ pre, e.2 = true) ∧
        (sessions_foreach enc (s :: rest) b).2.buf Iter.i = b.buf Iter.i ∧
        (sessions_foreach enc (s :: rest) b).2.ok = b.ok) ∨
    ((∀ j, j < 5 → b.ok (b.calls.length + j) = true) ∧
      sessions_foreach enc (s :: rest) b = sessions_foreach enc rest (after_body enc s b)) := by
  by_cases h1 : b.ok b.calls.length = true
  swap
  · left
    refine ⟨[], Call.open_container Iter.sub DBusType.STRUCT none Iter.sub2, ?_⟩
    simp [sessions_foreach, dbus_message_iter_open_container, Bus.next, Bus.log, h1]
  by_cases h2 : b.ok (b.calls.length + 1) = true
  swap
  · left
    refine ⟨[(Call.open_container Iter.sub DBusType.STRUCT none Iter.sub2, true)],
      Call.session_bus_path s, ?_⟩
    simp [sessions_foreach, dbus_message_iter_open_container, session_bus_path, Bus.next,
      Bus.log, Bus.set, h1, h2]
  by_cases h3 : b.ok (b.calls.length + 2) = true
  swap
  · left
    refine ⟨[(Call.open_container Iter.sub DBusType.STRUCT none Iter.sub2, true),
      (Call.session_bus_path s, true)],
      Call.append_basic Iter.sub2 DBusType.STRING s.id, ?_⟩
    simp [sessions_foreach, dbus_message_iter_open_container, session_bus_path,
      dbus_message_iter_append_basic, Bus.next, Bus.log, Bus.set, h1, h2, h3]
  by_cases h4 : b.ok (b.calls.length + 3) = true
  swap
  · left
    refine ⟨[(Call.open_container Iter.sub DBusType.STRUCT none Iter.sub2, true),
      (Call.session_bus_path s, true),
      (Call.append_basic Iter.sub2 DBusType.STRING s.id, true)],
      Call.append_basic Iter.sub2 DBusType.OBJECT_PATH (enc s), ?_⟩
    simp [sessions_foreach, dbus_message_iter_open_container, session_bus_path,
      dbus_message_iter_append_basic, Bus.next, Bus.log, Bus.set, h1, h2, h3, h4]
  by_cases h5 : b.ok (b.calls.length + 4) = true
  swap
  · left
    refine ⟨[(Call.open_container Iter.sub DBusType.STRUCT none Iter.sub2, true),
      (Call.session_bus_path s, true),
      (Call.append_basic Iter.sub2 DBusType.STRING s.id, true),
      (Call.append_basic Iter.sub2 DBusType.OBJECT_PATH (enc s), true)],
      Call.close_container Iter.sub Iter.sub2, ?_⟩
    simp [sessions_foreach, dbus_message_iter_open_container, session_bus_path,
      dbus_message_iter_append_basic, dbus_message_iter_close_container, Bus.next, Bus.log,
      Bus.set, h1, h2, h3, h4, h5]
  right
  constructor
  · intro j hj
    interval_cases j <;> assumption
  · exact sessions_foreach_cons_eq enc s rest b (by
      intro j hj
      interval_cases j <;> assumption)

/-! ## Marshalers under arbitrary failures -/

theorem opens_append (l1 l2 : List (Call × Bool)) : opens (l1 ++ l2) = opens l1 + opens l2 := by
  simp [opens, List.countP_append]

theorem closes_append (l1 l2 : List (Call × Bool)) :
    closes (l1 ++ l2) = closes l1 + closes l2 := by
  simp [closes, List.countP_append]

theorem sessions_foreach_policy (enc : Session → String) (ss : List Session) :
    ∀ b : Bus, ∃ new,
      (sessions_foreach enc ss b).2.calls = b.calls ++ new ∧
      (sessions_foreach enc ss b).2.ok = b.ok ∧
      (sessions_foreach enc ss b).2.buf Iter.i = b.buf Iter.i ∧
      (((sessions_foreach enc ss b).1 = none ∧ (∀ e ∈ new, e.2 = true) ∧
          opens new = closes new) ∨
       ((sessions_foreach enc ss b).1 = some (-ENOMEM) ∧
          ∃ pre c, new = pre ++ [(c, false)] ∧ ∀ e ∈ pre, e.2 = true)) := by
  induction ss with
  | nil =>
    intro b
    exact ⟨[], by simp [sessions_foreach], rfl, rfl, Or.inl ⟨rfl, by simp, rfl⟩⟩
  | cons s rest ih =>
    intro b
    rcases sessions_foreach_cons enc s rest b with ⟨pre, c, hr, hc, hp, hb, ho⟩ | ⟨_, heq⟩
    · exact ⟨pre ++ [(c, false)], hc, ho, hb, Or.inr ⟨hr, pre, c, rfl, hp⟩⟩
    · obtain ⟨new, hc, ho, hb, hcase⟩ := ih (after_body enc s b)
      rw [heq]
      refine ⟨[(Call.open_container Iter.sub DBusType.STRUCT none Iter.sub2, true),
        (Call.session_bus_path s, true),
        (Call.append_basic Iter.sub2 DBusType.STRING s.id, true),
        (Call.append_basic Iter.sub2 DBusType.OBJECT_PATH (enc s), true),
        (Call.close_container Iter.sub Iter.sub2, true)] ++ new, ?_, ?_, ?_, ?_⟩
      · rw [hc]; simp [after_body]
      · rw [ho]; rfl
      · rw [hb]; simp [after_body, Bus.set]
      · rcases hcase with ⟨hn, hall, hbal⟩ | ⟨hn, pre, c, hnew, hall⟩
        · refine Or.inl ⟨hn, ?_, ?_⟩
          · intro e he
            rcases List.mem_append.mp he with h | h
            · simp only [List.mem_cons, List.mem_singleton, List.not_mem_nil, or_false] at h
              rcases h with h | h | h | h | h <;> rw [h]
            · exact hall e h
          · rw [opens_append, closes_append, hbal]
            rfl
        · refine Or.inr ⟨hn, _ ++ pre, c, by rw [hnew, List.append_assoc], ?_⟩
          intro e he
          rcases List.mem_append.mp he with h | h
          · simp only [List.mem_cons, List.mem_singleton, List.not_mem_nil, or_false] at h
            rcases h with h | h | h | h | h <;> rw [h]
          · exact hall e h

theorem append_display_members_policy (id path : String) (b : Bus) :
    ∃ new, (append_display_members id path b).2.calls = b.calls ++ new ∧
      (((append_display_members id path b).1 = 0 ∧ (∀ e ∈ new, e.2 = true) ∧
          opens new = 0 ∧ closes new = 1) ∨
       ((append_display_members id path b).1 = -ENOMEM ∧
          (append_display_members id path b).2.buf Iter.i = b.buf Iter.i ∧
          ∃ pre c, new = pre ++ [(c, false)] ∧ ∀ e ∈ pre, e.2 = true)) := by
  by_cases h1 : b.ok b.calls.length = true
  swap
  · refine ⟨[] ++ [(Call.append_basic Iter.sub DBusType.STRING id, false)], ?_,
      Or.inr ⟨?_, ?_, [], _, rfl, by simp⟩⟩ <;>
    simp [append_display_members, dbus_message_iter_append_basic, Bus.next, Bus.log, h1]
  by_cases h2 : b.ok (b.calls.length + 1) = true
  swap
  · refine ⟨[(Call.append_basic Iter.sub DBusType.STRING id, true)] ++
        [(Call.append_basic Iter.sub DBusType.OBJECT_PATH path, false)], ?_,
      Or.inr ⟨?_, ?_, _, _, rfl, by simp⟩⟩ <;>
    simp [append_display_members, dbus_message_iter_append_basic, Bus.next, Bus.log, Bus.set,
      h1, h2]
  by_cases h3 : b.ok (b.calls.length + 2) = true
  swap
  · refine ⟨[(Call.append_basic Iter.sub DBusType.STRING id, true),
        (Call.append_basic Iter.sub DBusType.OBJECT_PATH path, true)] ++
        [(Call.close_container Iter.i Iter.sub, false)], ?_,
      Or.inr ⟨?_, ?_, _, _, rfl, by simp⟩⟩ <;>
    simp [append_display_members, dbus_message_iter_append_basic,
      dbus_message_iter_close_container, Bus.next, Bus.log, Bus.set, h1, h2, h3]
  · refine ⟨[(Call.append_basic Iter.sub DBusType.STRING id, true),
        (Call.append_basic Iter.sub DBusType.OBJECT_PATH path, true),
        (Call.close_container Iter.i Iter.sub, true)], ?_,
      Or.inl ⟨?_, by simp, by simp [opens], by simp [closes]⟩⟩ <;>
    simp [append_display_members, dbus_message_iter_append_basic,
      dbus_message_iter_close_container, Bus.next, Bus.log, Bus.set, h1, h2, h3]

theorem failure_policy_after (r : Int) (b0 b1 b2 : Bus) (done new : List (Call × Bool))
    (h01 : b1.calls = b0.calls ++ done) (hdone : ∀ e ∈ done, e.2 = true)
    (hb : b1.buf Iter.i = b0.buf Iter.i)
    (h12 : b2.calls = b1.calls ++ new)
    (hcase : (r = 0 ∧ (∀ e ∈ new, e.2 = true) ∧ opens (done ++ new) = closes (done ++ new)) ∨
      (r = -ENOMEM ∧ b2.buf Iter.i = b1.buf Iter.i ∧
        ∃ pre c, new = pre ++ [(c, false)] ∧ ∀ e ∈ pre, e.2 = true)) :
    ∃ all, b2.calls = b0.calls ++ all ∧ failure_policy r all ∧
      (r ≠ 0 → b2.buf Iter.i = b0.buf Iter.i) := by
  refine ⟨done ++ new, by rw [h12, h01, List.append_assoc], ?_, ?_⟩
  · rcases hcase with ⟨h0, hall, hbal⟩ | ⟨hm, _, pre, c, hnew, hall⟩
    · refine Or.inl ⟨h0, ?_, hbal⟩
      intro e he
      rcases List.mem_append.mp he with h | h
      · exact hdone e h
      · exact hall e h
    · refine Or.inr ⟨hm, done ++ pre, c, by rw [hnew, List.append_assoc], ?_⟩
      intro e he
      rcases List.mem_append.mp he with h | h
      · exact hdone e h
      · exact hall e h
  · intro hne
    rcases hcase with ⟨h0, _⟩ | ⟨_, hbuf, _⟩
    · exact absurd h0 hne
    · rw [hbuf, hb]

theorem display_failure_policy (enc : Session → String) (u : User) (b : Bus) :
    ∃ new, (bus_user_append_display enc u b).2.calls = b.calls ++ new ∧
      failure_policy (bus_user_append_display enc u b).1 new ∧
      ((bus_user_append_display enc u b).1 ≠ 0 →
        (bus_user_append_display enc u b).2.buf Iter.i = b.buf Iter.i) := by
  by_cases h1 : b.ok b.calls.length = true
  swap
  · refine ⟨[(Call.open_container Iter.i DBusType.STRUCT none Iter.sub, false)], ?_,
      Or.inr ⟨?_, [], _, rfl, by simp⟩, ?_⟩ <;>
    simp [bus_user_append_display, dbus_message_iter_open_container, Bus.next, Bus.log, h1]
  cases hd : u.display with
  | none =>
    simp only [bus_user_append_display, dbus_message_iter_open_container, Bus.next, Bus.log,
      h1, hd, if_true]
    obtain ⟨new, hc, hcase⟩ := append_display_members_policy "" "/"
      { ok := b.ok,
        calls := b.calls ++ [(Call.open_container Iter.i DBusType.STRUCT none Iter.sub, true)],
        buf := Bus.set b.buf Iter.sub [],
        kind := Bus.set b.kind Iter.sub (DBusType.STRUCT, none) }
    refine failure_policy_after _ b _ _
      [(Call.open_container Iter.i DBusType.STRUCT none Iter.sub, true)] new rfl (by simp)
      (by simp [Bus.set]) hc ?_
    rcases hcase with ⟨h0, hall, ho, hcl⟩ | h
    · refine Or.inl ⟨h0, hall, ?_⟩
      rw [opens_append, closes_append, ho, hcl]
      rfl
    · exact Or.inr h
  | some d =>
    by_cases h2 : b.ok (b.calls.length + 1) = true
    swap
    · refine ⟨[(Call.open_container Iter.i DBusType.STRUCT none Iter.sub, true)] ++
          [(Call.session_bus_path d, false)], ?_, Or.inr ⟨?_, _, _, rfl, by simp⟩, ?_⟩ <;>
      simp [bus_user_append_display, dbus_message_iter_open_container, session_bus_path,
        Bus.next, Bus.log, Bus.set, h1, h2, hd]
    simp only [bus_user_append_display, dbus_message_iter_open_container, session_bus_path,
      Bus.next, Bus.log, List.length_append, List.length_singleton, h1, h2, hd, if_true]
    obtain ⟨new, hc, hcase⟩ := append_display_members_policy d.id (enc d)
      { ok := b.ok,
        calls := b.calls ++ [(Call.open_container Iter.i DBusType.STRUCT none Iter.sub, true)]
          ++ [(Call.session_bus_path d, true)],
        buf := Bus.set b.buf Iter.sub [],
        kind := Bus.set b.kind Iter.sub (DBusType.STRUCT, none) }
    refine failure_policy_after _ b _ _
      [(Call.open_container Iter.i DBusType.STRUCT none Iter.sub, true),
       (Call.session_bus_path d, true)] new (by simp) (by simp)
      (by simp [Bus.set]) hc ?_
    rcases hcase with ⟨h0, hall, ho, hcl⟩ | h
    · refine Or.inl ⟨h0, hall, ?_⟩
      rw [opens_append, closes_append, ho, hcl]
      rfl
    · exact Or.inr h

theorem sessions_failure_policy (enc : Session → String) (u : User) (b : Bus) :
    ∃ new, (bus_user_append_sessions enc u b).2.calls = b.calls ++ new ∧
      failure_policy (bus_user_append_sessions enc u b).1 new ∧
      ((bus_user_append_sessions enc u b).1 ≠ 0 →
        (bus_user_append_sessions enc u b).2.buf Iter.i = b.buf Iter.i) := by
  by_cases h1 : b.ok b.calls.length = true
  swap
  · refine ⟨[(Call.open_container Iter.i DBusType.ARRAY (some "so") Iter.sub, false)], ?_,
      Or.inr ⟨?_, [], _, rfl, by simp⟩, ?_⟩ <;>
    simp [bus_user_append_sessions, dbus_message_iter_open_container, Bus.next, Bus.log, h1]
  simp only [bus_user_append_sessions, dbus_message_iter_open_container, Bus.next, Bus.log,
    h1, if_true]
  generalize hb1 : (⟨b.ok,
      b.calls ++ [(Call.open_container Iter.i DBusType.ARRAY (some "so") Iter.sub, true)],
      Bus.set b.buf Iter.sub [],
      Bus.set b.kind Iter.sub (DBusType.ARRAY, some "so")⟩ : Bus) = b1
  have e1 : b1.calls =
      b.calls ++ [(Call.open_container Iter.i DBusType.ARRAY (some "so") Iter.sub, true)] := by
    rw [← hb1]
  have e2 : b1.buf Iter.i = b.buf Iter.i := by
    rw [← hb1]
    simp [Bus.set]
  have e3 : ∀ e ∈ [(Call.open_container Iter.i DBusType.ARRAY (some "so") Iter.sub, true)],
      e.2 = true := by simp
  obtain ⟨newL, hc, _, hb, hcase⟩ := sessions_foreach_policy enc u.sessions b1
  rcases hl : sessions_foreach enc u.sessions b1 with ⟨r, b2⟩
  rw [hl] at hc hb hcase
  simp only at hc hb hcase
  rcases hcase with ⟨hn, hall, hbal⟩ | ⟨hn, hfail⟩
  · subst hn
    simp only [dbus_message_iter_close_container, Bus.next, Bus.log]
    by_cases h3 : b2.ok b2.calls.length = true
    · simp only [h3, if_true]
      refine failure_policy_after _ b b1
        ⟨b2.ok, b2.calls ++ [(Call.close_container Iter.i Iter.sub, true)],
          Bus.set b2.buf Iter.i (b2.buf Iter.i ++
            [Value.container (b2.kind Iter.sub).1 (b2.kind Iter.sub).2 (b2.buf Iter.sub)]),
          b2.kind⟩ _
        (newL ++ [(Call.close_container Iter.i Iter.sub, true)]) e1 e3 e2
        (by simp [hc]) (Or.inl ⟨rfl, ?_, ?_⟩)
      · intro e he
        rcases List.mem_append.mp he with h | h
        · exact hall e h
        · rw [List.mem_singleton.mp h]
      · rw [opens_append, closes_append, opens_append, closes_append, hbal]
        simp [opens, closes]
        omega
    · simp only [h3]
      exact failure_policy_after _ b b1
        ⟨b2.ok, b2.calls ++ [(Call.close_container Iter.i Iter.sub, false)], b2.buf, b2.kind⟩ _
        (newL ++ [(Call.close_container Iter.i Iter.sub, false)]) e1 e3 e2
        (by simp [hc]) (Or.inr ⟨by simp, hb, newL, _, rfl, hall⟩)
  · subst hn
    exact failure_policy_after _ b b1 b2 _ newL e1 e3 e2 hc (Or.inr ⟨rfl, hb, hfail⟩)

theorem sessions_failure_example :
    (bus_user_append_sessions sample_enc sample_user (Bus.failing_at 7)).1 = -ENOMEM ∧
    (bus_user_append_sessions sample_enc sample_user (Bus.failing_at 7)).2.buf Iter.i = [] ∧
    (bus_user_append_sessions sample_enc sample_user (Bus.failing_at 7)).2.calls.length = 8 ∧
    (bus_user_append_display sample_enc sample_user (Bus.failing_at 4)).1 = -ENOMEM ∧
    (bus_user_append_display sample_enc sample_user (Bus.failing_at 4)).2.calls.getLast? =
      some (Call.close_container Iter.i Iter.sub, false) ∧
    (bus_user_append_display sample_enc sample_user (Bus.failing_at 4)).2.buf Iter.i = [] := by
  refine ⟨by rfl, by rfl, by rfl, by rfl, by rfl, by rfl⟩

/-- C9: whatever calls fail, each of the two marshalers either returns 0,
and then every call it made succeeded and it closed as many containers
as it opened, or returns `-ENOMEM`, and then the failed call is the last
call it made (nothing is appended and no container is closed after it)
and nothing has reached the caller's iterator. So 0 is returned only
after a run without failure in which the containers were closed. -/
theorem marshalers_failure_policy (enc : Session → String) (u : User) (b : Bus) :
    (∃ new, (bus_user_append_display enc u b).2.calls = b.calls ++ new ∧
      failure_policy (bus_user_append_display enc u b).1 new ∧
      ((bus_user_append_display enc u b).1 ≠ 0 →
        (bus_user_append_display enc u b).2.buf Iter.i = b.buf Iter.i)) ∧
    (∃ new, (bus_user_append_sessions enc u b).2.calls = b.calls ++ new ∧
      failure_policy (bus_user_append_sessions enc u b).1 new ∧
      ((bus_user_append_sessions enc u b).1 ≠ 0 →
        (bus_user_append_sessions enc u b).2.buf Iter.i = b.buf Iter.i)) := by
  constructor
  · exact display_failure_policy enc u b
  · exact sessions_failure_policy enc u b

/-! ## Marshalers when every call succeeds -/

theorem sessions_foreach_all_ok (enc : Session → String) (ss : List Session) :
    ∀ b : Bus, (∀ k, b.ok k = true) →
      (sessions_foreach enc ss b).1 = none ∧
      (sessions_foreach enc ss b).2.ok = b.ok ∧
      (sessions_foreach enc ss b).2.buf Iter.sub =
        b.buf Iter.sub ++ ss.map (session_struct enc) ∧
      (sessions_foreach enc ss b).2.buf Iter.i = b.buf Iter.i ∧
      (sessions_foreach enc ss b).2.kind Iter.sub = b.kind Iter.sub := by
  induction ss with
  | nil => intro b _; simp [sessions_foreach]
  | cons s rest ih =>
    intro b hok
    rw [sessions_foreach_cons_eq enc s rest b (fun j _ => hok _)]
    obtain ⟨h0, h1, h2, h3, h4⟩ := ih (after_body enc s b) hok
    refine ⟨h0, h1, ?_, ?_, ?_⟩
    · rw [h2]; simp [after_body, Bus.set]
    · rw [h3]; simp [after_body, Bus.set]
    · rw [h4]; simp [after_body, Bus.set]

/-- C6: when every call succeeds, `bus_user_append_display` returns 0 and
appends to the caller's iterator exactly one struct with two members, a
string and an object path: `""` and `"/"` when `u->display` is null, the
display session's `id` and its `session_bus_path` otherwise. -/
theorem bus_user_append_display_value (enc : Session → String) (u : User) (b : Bus)
    (hok : ∀ k, b.ok k = true) :
    (bus_user_append_display enc u b).1 = 0 ∧
    (bus_user_append_display enc u b).2.buf Iter.i =
      b.buf Iter.i ++
        [Value.container DBusType.STRUCT none
          (match u.display with
           | none => [Value.basic DBusType.STRING "", Value.basic DBusType.OBJECT_PATH "/"]
           | some d => [Value.basic DBusType.STRING d.id,
                        Value.basic DBusType.OBJECT_PATH (enc d)])] := by
  cases hd : u.display with
  | none =>
    simp [bus_user_append_display, append_display_members, dbus_message_iter_open_container,
      dbus_message_iter_append_basic, dbus_message_iter_close_container, Bus.next, Bus.log,
      Bus.set, hok, hd]
  | some d =>
    simp [bus_user_append_display, append_display_members, dbus_message_iter_open_container,
      session_bus_path, dbus_message_iter_append_basic, dbus_message_iter_close_container,
      Bus.next, Bus.log, Bus.set, hok, hd]

theorem bus_user_append_display_value_witness :
    (bus_user_append_display sample_enc idle_user Bus.fresh).1 = 0 ∧
    (bus_user_append_display sample_enc idle_user Bus.fresh).2.buf Iter.i =
      [Value.container DBusType.STRUCT none
        [Value.basic DBusType.STRING "", Value.basic DBusType.OBJECT_PATH "/"]] :=
  bus_user_append_display_value sample_enc idle_user Bus.fresh (fun _ => rfl)

/-- C7: when every call succeeds, `bus_user_append_sessions` returns 0 and
appends to the caller's iterator exactly one array with element
signature `"so"` whose elements are the structs (`id`,
`session_bus_path`) of the sessions of `u->sessions`, one per session, in
list order; for an empty list the array is there and empty. -/
theorem bus_user_append_sessions_value (enc : Session → String) (u : User) (b : Bus)
    (hok : ∀ k, b.ok k = true) :
    (bus_user_append_sessions enc u b).1 = 0 ∧
    (bus_user_append_sessions enc u b).2.buf Iter.i =
      b.buf Iter.i ++
        [Value.container DBusType.ARRAY (some "so") (u.sessions.map (session_struct enc))] ∧
    (u.sessions.map (session_struct enc)).length = u.sessions.length ∧
    (u.sessions = [] →
      (bus_user_append_sessions enc u b).2.buf Iter.i =
        b.buf Iter.i ++ [Value.container DBusType.ARRAY (some "so") []]) := by
  have main : (bus_user_append_sessions enc u b).1 = 0 ∧
      (bus_user_append_sessions enc u b).2.buf Iter.i =
        b.buf Iter.i ++
          [Value.container DBusType.ARRAY (some "so") (u.sessions.map (session_struct enc))] := by
    simp only [bus_user_append_sessions, dbus_message_iter_open_container, Bus.next, Bus.log,
      hok, if_true]
    obtain ⟨h0, h1, h2, h3, h4⟩ := sessions_foreach_all_ok enc u.sessions
      { ok := b.ok,
        calls := b.calls ++
          [(Call.open_container Iter.i DBusType.ARRAY (some "so") Iter.sub, true)],
        buf := Bus.set b.buf Iter.sub [],
        kind := Bus.set b.kind Iter.sub (DBusType.ARRAY, some "so") } hok
    rcases hl : sessions_foreach enc u.sessions
      { ok := b.ok,
        calls := b.calls ++
          [(Call.open_container Iter.i DBusType.ARRAY (some "so") Iter.sub, true)],
        buf := Bus.set b.buf Iter.sub [],
        kind := Bus.set b.kind Iter.sub (DBusType.ARRAY, some "so") } with ⟨r, b1⟩
    rw [hl] at h0 h1 h2 h3 h4
    simp only at h0 h1 h2 h3 h4
    subst h0
    have hok1 : ∀ k, b1.ok k = true := by rw [h1]; exact hok
    simp [dbus_message_iter_close_container, Bus.next, Bus.log, hok1, Bus.set, h2, h3, h4]
  refine ⟨main.1, main.2, by simp, fun he => ?_⟩
  rw [main.2, he]
  rfl

theorem bus_user_append_sessions_value_witness :
    (bus_user_append_sessions sample_enc sample_user Bus.fresh).1 = 0 ∧
    (bus_user_append_sessions sample_enc sample_user Bus.fresh).2.buf Iter.i =
      [Value.container DBusType.ARRAY (some "so")
        [Value.container DBusType.STRUCT none
           [Value.basic DBusType.STRING "c1",
            Value.basic DBusType.OBJECT_PATH "/org/freedesktop/login1/session/c1"],
         Value.container DBusType.STRUCT none
           [Value.basic DBusType.STRING "c2",
            Value.basic DBusType.OBJECT_PATH "/org/freedesktop/login1/session/c2"]]] :=
  ⟨(bus_user_append_sessions_value sample_enc sample_user Bus.fresh (fun _ => rfl)).1,
   (bus_user_append_sessions_value sample_enc sample_user Bus.fresh (fun _ => rfl)).2.1⟩

end Logind
